import Mathlib

/-!
Verification of `uptime-kuma-sync.py`: a one-shot CLI that reconciles a local
domain list against the HTTP monitors of a remote Uptime Kuma instance.

The Python program is shallowly embedded: Python dicts become association
lists with Python's insertion semantics (`dinsert`), `sys.exit(1)` becomes
`none` / an exit code, and every socket.io call is driven by an explicit
outcome oracle so that the RPC traces of each command become pure values.
-/

namespace UKS

/-! ## Python-dict association lists

Python dicts preserve insertion order; assigning to an existing key updates
the value in place, a new key is appended at the end. -/

/-- `d[k] = v` with Python dict semantics. -/
def dinsert (d : List (String × α)) (k : String) (v : α) : List (String × α) :=
  if (d.map Prod.fst).contains k then
    d.map (fun p => if p.1 = k then (k, v) else p)
  else d ++ [(k, v)]

/-- `k in d` for a Python dict. -/
def dcontains (d : List (String × α)) (k : String) : Bool :=
  (d.map Prod.fst).contains k

/-- `d.get(k)` / `d[k]` lookup. -/
def dlookup (d : List (String × α)) (k : String) : Option α :=
  (d.find? (fun p => p.1 = k)).map Prod.snd

/-- `dinsert` taking the (key, value) pair as one argument. -/
def dinsertPair (d : List (String × α)) (q : String × α) : List (String × α) :=
  dinsert d q.1 q.2

/-! ## Configuration constants (from the source header) -/

def PARENT_GROUP_ID : Int := 1
def MONITOR_INTERVAL : Nat := 60
def MONITOR_RETRY_INTERVAL : Nat := 60
def MONITOR_TIMEOUT : Nat := 30
def MONITOR_MAX_RETRIES : Nat := 1
def MONITOR_MAX_REDIRECTS : Nat := 10
def DEFAULT_NOTIFICATION_IDS : List Nat := [1]

/-! ## Data model -/

/-- One entry of the `monitorList` snapshot pushed by the server.
`parent` and `type` are read with `.get` (absent key gives `None`);
`url` is read with `.get("url", "")`; `name` is accessed directly. -/
structure MonitorRec where
  name : String
  url : Option String := none
  type : Option String := none
  parent : Option Int := none
deriving Repr, DecidableEq

/-- The value stored per name by `get_existing_monitors`. -/
structure ExistingInfo where
  id : Nat
  url : String
deriving Repr, DecidableEq

/-- `monitor_list`: the snapshot dict, keyed by monitor id. -/
abbrev MonitorList := List (Nat × MonitorRec)

/-- The filtering predicate of `get_existing_monitors`:
`monitor.get("parent") == PARENT_GROUP_ID and monitor.get("type") == "http"`. -/
def monitorManaged (m : MonitorRec) : Bool :=
  m.parent = some PARENT_GROUP_ID && m.type = some "http"

/-- One iteration of the `get_existing_monitors` loop. -/
def geStep (existing : List (String × ExistingInfo)) (p : Nat × MonitorRec) :
    List (String × ExistingInfo) :=
  if monitorManaged p.2 then
    dinsert existing p.2.name ⟨p.1, p.2.url.getD ""⟩
  else existing

/-- `get_existing_monitors()`: builds the name-keyed dict of managed monitors. -/
def get_existing_monitors (monitor_list : MonitorList) :
    List (String × ExistingInfo) :=
  monitor_list.foldl geStep []

/-! ## Domain file parsing (`load_domains`)

Python string primitives, modelled on the character list of the string so
that they compute by structural recursion. -/

/-- Python `str.strip()` on a character list. -/
def pyStripList (l : List Char) : List Char :=
  ((l.dropWhile Char.isWhitespace).reverse.dropWhile Char.isWhitespace).reverse

/-- Python `str.strip()`. -/
def pyStrip (s : String) : String :=
  ⟨pyStripList s.data⟩

/-- Split a character list at every character satisfying `p`, keeping empty
pieces (Python `str.split(sep)` semantics for a one-character separator). -/
def splitOnPred (p : Char → Bool) : List Char → List (List Char)
  | [] => [[]]
  | a :: rest =>
    match splitOnPred p rest with
    | [] => [[]]
    | grp :: groups =>
      if p a then [] :: (grp :: groups) else (a :: grp) :: groups

/-- Python `line.split()`: split on whitespace runs, dropping empty pieces. -/
def pySplit (line : String) : List String :=
  ((splitOnPred Char.isWhitespace line.data).filter (fun g => g ≠ [])).map
    (fun g => ⟨g⟩)

/-- `content.strip().split("\n")`. -/
def pyLines (content : String) : List String :=
  (splitOnPred (fun c => c = '\n') (pyStrip content).data).map (fun g => ⟨g⟩)

/-- One iteration of the `load_domains` loop: skip blank lines, keep lines
with at least three fields, binding field 1 to field 3. -/
def loadDomainsStep (domains : List (String × String)) (line : String) :
    List (String × String) :=
  if pyStrip line = "" then domains
  else
    match pySplit line with
    | n :: _ :: u :: _ => dinsert domains n u
    | _ => domains

/-- The body of `load_domains` once the file content is in hand. -/
def load_domains_from (content : String) : List (String × String) :=
  (pyLines content).foldl loadDomainsStep []

/-- `load_domains()`: `none` models the `sys.exit(1)` taken when the domains
file does not exist; the argument is the file's content when it exists. -/
def load_domains (file : Option String) : Option (List (String × String)) :=
  file.map load_domains_from

/-! ## RPC channel (`call_with_callback`)

`sio.call` either returns a correlated response dict, raises `TimeoutError`,
or raises some other transport exception.  The environment's behaviour for
one call is a `CallOutcome`; `call_with_callback` catches both exception
cases and returns `None`. -/

/-- A correlated response dict; keys absent from a concrete response are
`none` (`.get` gives `None`). -/
structure Response where
  ok : Bool := false
  msg : Option String := none
  token : Option String := none
  monitorID : Option Nat := none
deriving Repr, DecidableEq

/-- What `sio.call` does for one invocation. -/
inductive CallOutcome where
  | response (r : Response)
  | timeout
  | transportError (e : String)
deriving Repr, DecidableEq

/-- `call_with_callback`: a response is returned, a timeout or any other
exception is caught and turned into `None`. -/
def call_with_callback : CallOutcome → Option Response
  | .response r => some r
  | .timeout => none
  | .transportError _ => none

/-- Python truthiness of `response and response.get("ok")`. -/
def respOk : Option Response → Bool
  | some r => r.ok
  | none => false

/-! ## Monitor create / delete operations -/

/-- The payload `create_monitor` sends with the `"add"` event. -/
structure MonitorData where
  name : String
  type : String
  url : String
  method : String
  interval : Nat
  retryInterval : Nat
  timeout : Nat
  maxretries : Nat
  maxredirects : Nat
  resendInterval : Nat
  active : Bool
  parent : Int
  notificationIDList : List (String × Bool)
  accepted_statuscodes : List String
  expiryNotification : Bool
  ignoreTls : Bool
  upsideDown : Bool
  packetSize : Nat
  httpBodyEncoding : String
deriving Repr, DecidableEq

/-- The fixed monitor template `create_monitor` builds for a (name, url). -/
def monitor_data (name url : String) : MonitorData where
  name := name
  type := "http"
  url := url
  method := "GET"
  interval := MONITOR_INTERVAL
  retryInterval := MONITOR_RETRY_INTERVAL
  timeout := MONITOR_TIMEOUT
  maxretries := MONITOR_MAX_RETRIES
  maxredirects := MONITOR_MAX_REDIRECTS
  resendInterval := 0
  active := true
  parent := PARENT_GROUP_ID
  notificationIDList := DEFAULT_NOTIFICATION_IDS.map (fun nid => (toString nid, true))
  accepted_statuscodes := ["200-299"]
  expiryNotification := true
  ignoreTls := false
  upsideDown := false
  packetSize := 56
  httpBodyEncoding := "json"

/-- One RPC call emitted by a command, with its payload. -/
inductive RpcCall where
  | add (data : MonitorData)
  | deleteMonitor (id : Nat)
deriving Repr, DecidableEq

/-- `create_monitor(name, url)`: emits the `"add"` call and reports success
iff the (caught) response is truthy with `ok`. -/
def create_monitor (oc : CallOutcome) (name url : String) : RpcCall × Bool :=
  (.add (monitor_data name url), respOk (call_with_callback oc))

/-- `delete_monitor(monitor_id, name)`. -/
def delete_monitor (oc : CallOutcome) (monitor_id : Nat) : RpcCall × Bool :=
  (.deleteMonitor monitor_id, respOk (call_with_callback oc))

/-! ## Commands

Each command is driven by an `oracle : Nat → CallOutcome` giving the outcome
of its n-th RPC call (0-based), and returns the list of RPC calls it issued
together with what it reports. -/

/-- The loop body of `cmd_sync`: accumulated (calls, created) over one
domains entry. -/
def syncStep (existing : List (String × ExistingInfo)) (oracle : Nat → CallOutcome)
    (acc : List RpcCall × Nat) (p : String × String) : List RpcCall × Nat :=
  if dcontains existing p.1 then acc
  else
    let r := create_monitor (oracle acc.1.length) p.1 p.2
    (acc.1 ++ [r.1], if r.2 then acc.2 + 1 else acc.2)

/-- `cmd_sync` after `load_domains` succeeded: (calls issued, created count,
total in file). -/
def cmd_sync_core (domains : List (String × String))
    (existing : List (String × ExistingInfo)) (oracle : Nat → CallOutcome) :
    List RpcCall × Nat × Nat :=
  let r := domains.foldl (syncStep existing oracle) ([], 0)
  (r.1, r.2, domains.length)

/-- `cmd_sync()`: `none` models the `sys.exit(1)` of a missing domains file. -/
def cmd_sync (file : Option String) (monitor_list : MonitorList)
    (oracle : Nat → CallOutcome) : Option (List RpcCall × Nat × Nat) :=
  (load_domains file).map
    (fun domains => cmd_sync_core domains (get_existing_monitors monitor_list) oracle)

/-- One iteration of the `cmd_cleanup_preview` loop. -/
def previewStep (domains : List (String × String))
    (td : List (Nat × String × String)) (p : String × ExistingInfo) :
    List (Nat × String × String) :=
  if dcontains domains p.1 then td else td ++ [(p.2.id, p.1, p.2.url)]

/-- The `to_delete` list `cmd_cleanup_preview` builds and prints:
(id, name, url) per filtered monitor whose name is not in the domains dict. -/
def cleanup_to_delete (domains : List (String × String))
    (existing : List (String × ExistingInfo)) : List (Nat × String × String) :=
  existing.foldl (previewStep domains) []

/-- `cmd_cleanup_preview()`: computes and reports the delete list, no RPC. -/
def cmd_cleanup_preview (file : Option String) (monitor_list : MonitorList) :
    Option (List (Nat × String × String)) :=
  (load_domains file).map
    (fun domains => cleanup_to_delete domains (get_existing_monitors monitor_list))

/-- The loop body of `cmd_cleanup_confirm`. -/
def confirmStep (domains : List (String × String)) (oracle : Nat → CallOutcome)
    (acc : List RpcCall × Nat) (p : String × ExistingInfo) : List RpcCall × Nat :=
  if dcontains domains p.1 then acc
  else
    let r := delete_monitor (oracle acc.1.length) p.2.id
    (acc.1 ++ [r.1], if r.2 then acc.2 + 1 else acc.2)

/-- `cmd_cleanup_confirm` after `load_domains` succeeded: (calls, deleted). -/
def cmd_cleanup_confirm_core (domains : List (String × String))
    (existing : List (String × ExistingInfo)) (oracle : Nat → CallOutcome) :
    List RpcCall × Nat :=
  existing.foldl (confirmStep domains oracle) ([], 0)

/-- `cmd_cleanup_confirm()`. -/
def cmd_cleanup_confirm (file : Option String) (monitor_list : MonitorList)
    (oracle : Nat → CallOutcome) : Option (List RpcCall × Nat) :=
  (load_domains file).map
    (fun domains => cmd_cleanup_confirm_core domains (get_existing_monitors monitor_list) oracle)

/-! ## Authentication -/

/-- `load_jwt()`: file content stripped when the file exists, else `None`. -/
def load_jwt (file : Option String) : Option String :=
  file.map pyStrip

/-- Python truthiness of an optional string (`None` and `""` are falsy). -/
def truthyStr : Option String → Bool
  | none => false
  | some s => s ≠ ""

/-- The observable events of `authenticate`, in order. -/
inductive AuthEvent where
  | callTokenLogin (token : String)
  | callLogin (username password : String)
  | saveJwt (token : String)
deriving Repr, DecidableEq

/-- Configured credentials (the `USERNAME` / `PASSWORD` constants). -/
structure AuthConfig where
  username : String
  password : String
deriving Repr, DecidableEq

/-- The environment `authenticate` runs against: the JWT file's content
(`none` when absent) and the outcome of each login call, were it made. -/
structure AuthEnv where
  tokenFile : Option String
  tokenLoginOutcome : CallOutcome
  loginOutcome : CallOutcome
deriving Repr, DecidableEq

/-- What a run of `authenticate` did: its events, `some true` for a normal
return, `none` for `sys.exit(1)`, and the JWT file's content afterwards. -/
structure AuthResult where
  events : List AuthEvent
  returned : Option Bool
  tokenFileAfter : Option String
deriving Repr, DecidableEq

/-- The username/password fallback half of `authenticate` (from the
`# Fallback to username/password` comment down). -/
def authenticate_fallback (cfg : AuthConfig) (env : AuthEnv)
    (evs : List AuthEvent) : AuthResult :=
  if cfg.username = "" || cfg.password = "" then
    ⟨evs, none, env.tokenFile⟩
  else
    let evs := evs ++ [.callLogin cfg.username cfg.password]
    match call_with_callback env.loginOutcome with
    | some r =>
      if r.ok then
        if truthyStr r.token then
          let tk := r.token.getD ""
          ⟨evs ++ [.saveJwt tk], some true, some tk⟩
        else ⟨evs, some true, env.tokenFile⟩
      else ⟨evs, none, env.tokenFile⟩
    | none => ⟨evs, none, env.tokenFile⟩

/-- `authenticate()`: try the stored JWT first, fall back to credentials. -/
def authenticate (cfg : AuthConfig) (env : AuthEnv) : AuthResult :=
  let jwt_token := load_jwt env.tokenFile
  if truthyStr jwt_token then
    let t := jwt_token.getD ""
    if respOk (call_with_callback env.tokenLoginOutcome) then
      ⟨[.callTokenLogin t], some true, env.tokenFile⟩
    else
      authenticate_fallback cfg env [.callTokenLogin t]
  else
    authenticate_fallback cfg env []

/-! ## Command dispatch (`main`) -/

/-- The four CLI flags. -/
structure Args where
  sync : Bool := false
  list : Bool := false
  cleanup : Bool := false
  cleanup_confirm : Bool := false
deriving Repr, DecidableEq

/-- The four operating modes. -/
inductive Mode where
  | sync | list | cleanup | cleanup_confirm
deriving Repr, DecidableEq

/-- The `elif` chain of `main`'s dispatch: the first set flag wins. -/
def selectMode (a : Args) : Option Mode :=
  if a.sync then some .sync
  else if a.list then some .list
  else if a.cleanup then some .cleanup
  else if a.cleanup_confirm then some .cleanup_confirm
  else none

/-- `any([args.sync, args.list, args.cleanup, args.cleanup_confirm])`. -/
def anyFlag (a : Args) : Bool :=
  a.sync || a.list || a.cleanup || a.cleanup_confirm

/-- The observable events of a `main` run, in order. -/
inductive MainEvent where
  | printUsage
  | connectAttempt
  | auth (e : AuthEvent)
  | rpc (c : RpcCall)
  | disconnect
deriving Repr, DecidableEq

/-- The environment a whole run faces: whether `sio.connect` succeeds, the
authentication environment, the domains file, the snapshot received during
the fixed grace wait, and the outcome of each command RPC call. -/
structure MainEnv where
  connectOk : Bool
  auth : AuthEnv
  domainsFile : Option String
  monitor_list : MonitorList
  oracle : Nat → CallOutcome

/-- What a run of `main` did: its event trace, the process exit code, and
which command body (if any) was entered. -/
structure MainResult where
  trace : List MainEvent
  exitCode : Nat
  ran : Option Mode
deriving Repr, DecidableEq

/-- `main()`.  `sys.exit(1)` inside a command raises through the
`try/finally`, so `sio.disconnect()` still runs and the process exits 1;
connection or authentication failure exits 1 before the `try` block. -/
def main (a : Args) (cfg : AuthConfig) (env : MainEnv) : MainResult :=
  if !anyFlag a then ⟨[.printUsage], 0, none⟩
  else if !env.connectOk then ⟨[.connectAttempt], 1, none⟩
  else
    let ar := authenticate cfg env.auth
    let pre := MainEvent.connectAttempt :: ar.events.map .auth
    match ar.returned with
    | none => ⟨pre, 1, none⟩
    | some _ =>
      match selectMode a with
      | some .sync =>
        match cmd_sync env.domainsFile env.monitor_list env.oracle with
        | none => ⟨pre ++ [.disconnect], 1, some .sync⟩
        | some r => ⟨pre ++ r.1.map .rpc ++ [.disconnect], 0, some .sync⟩
      | some .list => ⟨pre ++ [.disconnect], 0, some .list⟩
      | some .cleanup =>
        match cmd_cleanup_preview env.domainsFile env.monitor_list with
        | none => ⟨pre ++ [.disconnect], 1, some .cleanup⟩
        | some _ => ⟨pre ++ [.disconnect], 0, some .cleanup⟩
      | some .cleanup_confirm =>
        match cmd_cleanup_confirm env.domainsFile env.monitor_list env.oracle with
        | none => ⟨pre ++ [.disconnect], 1, some .cleanup_confirm⟩
        | some r => ⟨pre ++ r.1.map .rpc ++ [.disconnect], 0, some .cleanup_confirm⟩
      | none => ⟨pre ++ [.disconnect], 0, none⟩

/-! ## Observables and reference expressions used by the theorems -/

/-- Is this call a create-monitor call for the given name? -/
def isAddNamed (n : String) : RpcCall → Bool
  | .add md => md.name == n
  | .deleteMonitor _ => false

/-- The name a create call carries, if any. -/
def addName : RpcCall → Option String
  | .add md => some md.name
  | .deleteMonitor _ => none

/-- Is this event a credential-login call? -/
def isCallLogin : AuthEvent → Bool
  | .callLogin _ _ => true
  | _ => false

/-- Is this event a token-login call? -/
def isCallTokenLogin : AuthEvent → Bool
  | .callTokenLogin _ => true
  | _ => false

/-- The monitor the remote service registers for a successful `"add"` call:
the payload's name, url, type and parent as seen in a later snapshot. -/
def monitorOfData (md : MonitorData) : MonitorRec where
  name := md.name
  url := some md.url
  type := some md.type
  parent := some md.parent

/-- The monitors a list of calls creates, in call order (every `"add"` call,
for a fully successful run). -/
def createdMonitors (calls : List RpcCall) : List MonitorRec :=
  calls.filterMap (fun c => match c with
    | .add md => some (monitorOfData md)
    | .deleteMonitor _ => none)

/-- Replace each snapshot monitor's `url` field, leaving id, name, type and
parent alone: used to state that URLs never influence reconciliation. -/
def mapUrl (f : Nat → MonitorRec → Option String) (ml : MonitorList) : MonitorList :=
  ml.map (fun p => (p.1, { p.2 with url := f p.1 p.2 }))

/-- One line of the domains file as `load_domains` reads it: `none` for a
blank or short line, else (field 1, field 3). -/
def parseLine (line : String) : Option (String × String) :=
  if pyStrip line = "" then none
  else
    match pySplit line with
    | n :: _ :: u :: _ => some (n, u)
    | _ => none

/-- The (name, url) pairs of the well-formed lines of the file, in order. -/
def wf_lines_entries (content : String) : List (String × String) :=
  (pyLines content).filterMap parseLine

/-- Does the dispatched mode read the domains file? -/
def needsDomains : Option Mode → Bool
  | some .sync => true
  | some .cleanup => true
  | some .cleanup_confirm => true
  | _ => false

/-! ## Dictionary lemmas -/

/-! ## Dictionary lemmas -/

theorem dcontains_eq_mem (d : List (String × α)) (n : String) :
    dcontains d n = decide (n ∈ d.map Prod.fst) := by
  simp [dcontains, List.contains]

theorem dkeys_dinsert (d : List (String × α)) (k : String) (v : α) :
    (dinsert d k v).map Prod.fst =
      if (d.map Prod.fst).contains k then d.map Prod.fst
      else d.map Prod.fst ++ [k] := by
  unfold dinsert
  split
  · rw [List.map_map]
    apply List.map_congr_left
    intro p _
    by_cases h : p.1 = k <;> simp [h]
  · simp

theorem mem_dkeys_dinsert {d : List (String × α)} {k n : String} {v : α} :
    n ∈ (dinsert d k v).map Prod.fst ↔ n = k ∨ n ∈ d.map Prod.fst := by
  rw [dkeys_dinsert]
  split
  · rename_i h
    have hk : k ∈ d.map Prod.fst := by simpa [List.contains] using h
    constructor
    · exact Or.inr
    · rintro (rfl | h')
      · exact hk
      · exact h'
  · simp [or_comm]

theorem dcontains_dinsert (d : List (String × α)) (k : String) (v : α) (n : String) :
    dcontains (dinsert d k v) n = (dcontains d n || (n == k)) := by
  simp only [dcontains_eq_mem]
  rw [Bool.eq_iff_iff]
  simp only [decide_eq_true_eq, Bool.or_eq_true, beq_iff_eq, mem_dkeys_dinsert]
  tauto

theorem mem_dinsert {d : List (String × α)} {k : String} {v : α} {q : String × α}
    (h : q ∈ dinsert d k v) : q = (k, v) ∨ q ∈ d := by
  unfold dinsert at h
  split at h
  · obtain ⟨p, hp, hq⟩ := List.mem_map.mp h
    by_cases hpk : p.1 = k
    · rw [if_pos hpk] at hq
      exact Or.inl hq.symm
    · rw [if_neg hpk] at hq
      exact Or.inr (hq ▸ hp)
  · rcases List.mem_append.mp h with h' | h'
    · exact Or.inr h'
    · exact Or.inl (by simpa using h')

theorem find?_key_map_update (d : List (String × α)) (k n : String) (v : α) :
    (d.map (fun p => if p.1 = k then (k, v) else p)).find? (fun p => p.1 = n) =
      if n = k then ((d.find? (fun p => p.1 = k)).map (fun _ => (k, v)))
      else d.find? (fun p => p.1 = n) := by
  induction d with
  | nil => by_cases h : n = k <;> simp [h]
  | cons p d ih =>
    by_cases hpk : p.1 = k
    · by_cases hnk : n = k
      · subst hnk
        simp [List.find?_cons, hpk]
      · have hkn : ¬ (k = n) := fun hh => hnk hh.symm
        simp [List.find?_cons, hpk, hkn, hnk, ih]
    · by_cases hpn : p.1 = n
      · have hnk : ¬ (n = k) := fun hh => hpk (hpn.trans hh)
        simp [List.find?_cons, hpk, hpn, hnk]
      · by_cases hnk : n = k
        · subst hnk
          simp [List.find?_cons, hpk, hpn, ih]
        · simp [List.find?_cons, hpk, hpn, hnk, ih]

theorem dlookup_dinsert (d : List (String × α)) (k : String) (v : α) (n : String) :
    dlookup (dinsert d k v) n = if n = k then some v else dlookup d n := by
  unfold dinsert dlookup
  split
  · rename_i h
    rw [find?_key_map_update]
    by_cases hnk : n = k
    · subst hnk
      rw [if_pos rfl, if_pos rfl]
      have hk : n ∈ d.map Prod.fst := by simpa [List.contains] using h
      obtain ⟨p, hp, hpn⟩ := List.mem_map.mp hk
      have : (d.find? (fun p => p.1 = n)).isSome := by
        rw [List.find?_isSome]
        exact ⟨p, hp, by simp [hpn]⟩
      obtain ⟨x, hx⟩ := Option.isSome_iff_exists.mp this
      simp [hx]
    · rw [if_neg hnk, if_neg hnk]
  · rename_i h
    rw [List.find?_append]
    by_cases hnk : n = k
    · subst hnk
      have hnone : d.find? (fun p => p.1 = n) = none := by
        rw [List.find?_eq_none]
        intro p hp hpn
        exact h (by
          simp only [List.contains, List.elem_eq_mem, decide_eq_true_eq]
          exact List.mem_map.mpr ⟨p, hp, by simpa using hpn⟩)
      simp [hnone]
    · by_cases hfind : (d.find? (fun p => p.1 = n)).isSome
      · obtain ⟨x, hx⟩ := Option.isSome_iff_exists.mp hfind
        simp [hx, hnk]
      · have h0 : d.find? (fun p => p.1 = n) = none := Option.not_isSome_iff_eq_none.mp hfind
        have hkn : ¬ (k = n) := fun hh => hnk hh.symm
        simp [h0, hnk, hkn]

theorem nodup_dkeys_dinsert {d : List (String × α)} (k : String) (v : α)
    (h : (d.map Prod.fst).Nodup) : ((dinsert d k v).map Prod.fst).Nodup := by
  rw [dkeys_dinsert]
  split
  · exact h
  · rename_i hc
    have hk : k ∉ d.map Prod.fst := by
      intro hm
      exact hc (by simpa [List.contains] using hm)
    rw [List.nodup_append]
    refine ⟨h, List.nodup_singleton k, ?_⟩
    intro a ha hb
    rw [List.mem_singleton] at hb
    exact hk (hb ▸ ha)

/-! ## `get_existing_monitors` lemmas -/

theorem dcontains_foldl_geStep (l : MonitorList) (d : List (String × ExistingInfo))
    (n : String) :
    dcontains (l.foldl geStep d) n =
      (dcontains d n || l.any (fun p => monitorManaged p.2 && p.2.name == n)) := by
  induction l generalizing d with
  | nil => simp
  | cons p l ih =>
    rw [List.foldl_cons, List.any_cons, ih]
    unfold geStep
    by_cases h : monitorManaged p.2
    · rw [if_pos h, dcontains_dinsert, h]
      rw [Bool.eq_iff_iff]
      simp only [Bool.or_eq_true, beq_iff_eq, Bool.true_and]
      constructor
      · rintro ((hd | he) | hl)
        · exact Or.inl hd
        · exact Or.inr (Or.inl he.symm)
        · exact Or.inr (Or.inr hl)
      · rintro (hd | (he | hl))
        · exact Or.inl (Or.inl hd)
        · exact Or.inl (Or.inr he.symm)
        · exact Or.inr hl
    · rw [if_neg h]
      simp [h]

theorem dcontains_ge (ml : MonitorList) (n : String) :
    dcontains (get_existing_monitors ml) n =
      ml.any (fun p => monitorManaged p.2 && p.2.name == n) := by
  unfold get_existing_monitors
  rw [dcontains_foldl_geStep]
  simp [dcontains]

theorem mem_foldl_geStep {l : MonitorList} {d : List (String × ExistingInfo)}
    {q : String × ExistingInfo} (h : q ∈ l.foldl geStep d) :
    q ∈ d ∨ ∃ p ∈ l, monitorManaged p.2 ∧ q = (p.2.name, ⟨p.1, p.2.url.getD ""⟩) := by
  induction l generalizing d with
  | nil => exact Or.inl h
  | cons p l ih =>
    rw [List.foldl_cons] at h
    rcases ih h with h' | ⟨p', hp', hm, hq⟩
    · unfold geStep at h'
      by_cases hmng : monitorManaged p.2
      · rw [if_pos hmng] at h'
        rcases mem_dinsert h' with hq | hq
        · exact Or.inr ⟨p, List.mem_cons_self p l, hmng, hq⟩
        · exact Or.inl hq
      · rw [if_neg hmng] at h'
        exact Or.inl h'
    · exact Or.inr ⟨p', List.mem_cons_of_mem p hp', hm, hq⟩

theorem mem_ge {ml : MonitorList} {q : String × ExistingInfo}
    (h : q ∈ get_existing_monitors ml) :
    ∃ p ∈ ml, monitorManaged p.2 ∧ q = (p.2.name, ⟨p.1, p.2.url.getD ""⟩) := by
  rcases mem_foldl_geStep h with h' | h'
  · simp at h'
  · exact h'

theorem monitorManaged_mapUrl (f : Nat → MonitorRec → Option String)
    (p : Nat × MonitorRec) :
    monitorManaged { p.2 with url := f p.1 p.2 } = monitorManaged p.2 := rfl

theorem dkeys_foldl_geStep_mapUrl (f : Nat → MonitorRec → Option String)
    (l : MonitorList) :
    ∀ (d d' : List (String × ExistingInfo)), d.map Prod.fst = d'.map Prod.fst →
      ((mapUrl f l).foldl geStep d).map Prod.fst = (l.foldl geStep d').map Prod.fst := by
  induction l with
  | nil => intro d d' h; simpa [mapUrl] using h
  | cons p l ih =>
    intro d d' h
    rw [mapUrl, List.map_cons, List.foldl_cons, List.foldl_cons]
    rw [show (List.map (fun p => (p.1, { p.2 with url := f p.1 p.2 })) l : MonitorList) =
      mapUrl f l from rfl]
    apply ih
    unfold geStep
    rw [monitorManaged_mapUrl]
    by_cases hm : monitorManaged p.2
    · rw [if_pos hm, if_pos hm, dkeys_dinsert, dkeys_dinsert, h]
    · rw [if_neg hm, if_neg hm]
      exact h

theorem dkeys_ge_mapUrl (f : Nat → MonitorRec → Option String) (ml : MonitorList) :
    (get_existing_monitors (mapUrl f ml)).map Prod.fst =
      (get_existing_monitors ml).map Prod.fst := by
  unfold get_existing_monitors
  exact dkeys_foldl_geStep_mapUrl f ml [] [] rfl

/-! ## Command trace characterizations -/

theorem sync_calls_eq (existing : List (String × ExistingInfo))
    (oracle : Nat → CallOutcome) (domains : List (String × String)) :
    ∀ acc : List RpcCall × Nat,
      (domains.foldl (syncStep existing oracle) acc).1 =
        acc.1 ++ (domains.filter (fun p => !dcontains existing p.1)).map
          (fun p => RpcCall.add (monitor_data p.1 p.2)) := by
  induction domains with
  | nil => intro acc; simp
  | cons p l ih =>
    intro acc
    rw [List.foldl_cons, List.filter_cons]
    by_cases h : dcontains existing p.1
    · rw [show syncStep existing oracle acc p = acc from by simp [syncStep, h]]
      rw [ih]
      simp [h]
    · rw [show syncStep existing oracle acc p =
        (acc.1 ++ [RpcCall.add (monitor_data p.1 p.2)],
         if respOk (call_with_callback (oracle acc.1.length)) then acc.2 + 1 else acc.2)
        from by simp [syncStep, h, create_monitor]]
      rw [ih]
      simp [h]

theorem cmd_sync_core_calls (domains : List (String × String))
    (existing : List (String × ExistingInfo)) (oracle : Nat → CallOutcome) :
    (cmd_sync_core domains existing oracle).1 =
      (domains.filter (fun p => !dcontains existing p.1)).map
        (fun p => RpcCall.add (monitor_data p.1 p.2)) := by
  unfold cmd_sync_core
  rw [sync_calls_eq]
  rfl

theorem confirm_calls_eq (domains : List (String × String))
    (oracle : Nat → CallOutcome) (existing : List (String × ExistingInfo)) :
    ∀ acc : List RpcCall × Nat,
      (existing.foldl (confirmStep domains oracle) acc).1 =
        acc.1 ++ (existing.filter (fun p => !dcontains domains p.1)).map
          (fun p => RpcCall.deleteMonitor p.2.id) := by
  induction existing with
  | nil => intro acc; simp
  | cons p l ih =>
    intro acc
    rw [List.foldl_cons, List.filter_cons]
    by_cases h : dcontains domains p.1
    · rw [show confirmStep domains oracle acc p = acc from by simp [confirmStep, h]]
      rw [ih]
      simp [h]
    · rw [show confirmStep domains oracle acc p =
        (acc.1 ++ [RpcCall.deleteMonitor p.2.id],
         if respOk (call_with_callback (oracle acc.1.length)) then acc.2 + 1 else acc.2)
        from by simp [confirmStep, h, delete_monitor]]
      rw [ih]
      simp [h]

theorem cmd_cleanup_confirm_core_calls (domains : List (String × String))
    (existing : List (String × ExistingInfo)) (oracle : Nat → CallOutcome) :
    (cmd_cleanup_confirm_core domains existing oracle).1 =
      (existing.filter (fun p => !dcontains domains p.1)).map
        (fun p => RpcCall.deleteMonitor p.2.id) := by
  unfold cmd_cleanup_confirm_core
  rw [confirm_calls_eq]
  rfl

theorem preview_to_delete_eq (domains : List (String × String))
    (existing : List (String × ExistingInfo)) :
    ∀ acc : List (Nat × String × String),
      existing.foldl (previewStep domains) acc =
        acc ++ (existing.filter (fun p => !dcontains domains p.1)).map
          (fun p => (p.2.id, p.1, p.2.url)) := by
  induction existing with
  | nil => intro acc; simp
  | cons p l ih =>
    intro acc
    rw [List.foldl_cons, List.filter_cons]
    by_cases h : dcontains domains p.1
    · rw [show previewStep domains acc p = acc from by simp [previewStep, h]]
      rw [ih]
      simp [h]
    · rw [show previewStep domains acc p = acc ++ [(p.2.id, p.1, p.2.url)] from by
        simp [previewStep, h]]
      rw [ih]
      simp [h]

theorem cleanup_to_delete_eq (domains : List (String × String))
    (existing : List (String × ExistingInfo)) :
    cleanup_to_delete domains existing =
      (existing.filter (fun p => !dcontains domains p.1)).map
        (fun p => (p.2.id, p.1, p.2.url)) := by
  unfold cleanup_to_delete
  rw [preview_to_delete_eq]
  rfl

/-! ## `load_domains` lemmas -/

theorem loadDomainsStep_eq (d : List (String × String)) (line : String) :
    loadDomainsStep d line =
      match parseLine line with
      | some q => dinsertPair d q
      | none => d := by
  unfold loadDomainsStep parseLine dinsertPair
  by_cases h : pyStrip line = ""
  · simp [h]
  · simp only [if_neg h]
    cases hs : pySplit line with
    | nil => rfl
    | cons a t =>
      cases t with
      | nil => rfl
      | cons b t2 =>
        cases t2 with
        | nil => rfl
        | cons c t3 => rfl

theorem foldl_loadDomainsStep (lines : List String) :
    ∀ d : List (String × String),
      lines.foldl loadDomainsStep d = (lines.filterMap parseLine).foldl dinsertPair d := by
  induction lines with
  | nil => intro d; rfl
  | cons line lines ih =>
    intro d
    rw [List.foldl_cons, loadDomainsStep_eq]
    cases h : parseLine line with
    | none => rw [List.filterMap_cons_none h, ih]
    | some q => rw [List.filterMap_cons_some h, List.foldl_cons, ih]

theorem load_domains_from_eq (content : String) :
    load_domains_from content = (wf_lines_entries content).foldl dinsertPair [] := by
  unfold load_domains_from wf_lines_entries
  exact foldl_loadDomainsStep _ []

theorem dcontains_foldl_dinsertPair (entries : List (String × α)) :
    ∀ (d : List (String × α)) (n : String),
      dcontains (entries.foldl dinsertPair d) n =
        (dcontains d n || entries.any (fun q => q.1 == n)) := by
  induction entries with
  | nil => intro d n; simp
  | cons q entries ih =>
    intro d n
    rw [List.foldl_cons, List.any_cons, ih]
    unfold dinsertPair
    rw [dcontains_dinsert]
    rw [Bool.eq_iff_iff]
    simp only [Bool.or_eq_true, beq_iff_eq]
    constructor
    · rintro ((hd | he) | hl)
      · exact Or.inl hd
      · exact Or.inr (Or.inl he.symm)
      · exact Or.inr (Or.inr hl)
    · rintro (hd | (he | hl))
      · exact Or.inl (Or.inl hd)
      · exact Or.inl (Or.inr he.symm)
      · exact Or.inr hl

theorem dcontains_load_domains_from (content : String) (n : String) :
    dcontains (load_domains_from content) n =
      (wf_lines_entries content).any (fun q => q.1 == n) := by
  rw [load_domains_from_eq, dcontains_foldl_dinsertPair]
  simp [dcontains]

theorem nodup_keys_foldl_dinsertPair (entries : List (String × α)) :
    ∀ d : List (String × α), (d.map Prod.fst).Nodup →
      ((entries.foldl dinsertPair d).map Prod.fst).Nodup := by
  induction entries with
  | nil => intro d h; exact h
  | cons q entries ih =>
    intro d h
    rw [List.foldl_cons]
    exact ih _ (nodup_dkeys_dinsert q.1 q.2 h)

theorem nodup_keys_load_domains_from (content : String) :
    ((load_domains_from content).map Prod.fst).Nodup := by
  rw [load_domains_from_eq]
  exact nodup_keys_foldl_dinsertPair _ [] (by simp)

theorem dlookup_foldl_dinsertPair (entries : List (String × α)) :
    ∀ (d : List (String × α)) (n : String),
      dlookup (entries.foldl dinsertPair d) n =
        ((entries.reverse.find? (fun q => q.1 == n)).map Prod.snd).or (dlookup d n) := by
  induction entries with
  | nil => intro d n; simp
  | cons q entries ih =>
    intro d n
    rw [List.foldl_cons, ih, List.reverse_cons, List.find?_append]
    unfold dinsertPair
    rw [dlookup_dinsert]
    cases hf : entries.reverse.find? (fun q => q.1 == n) with
    | some x => simp
    | none =>
      by_cases hq : q.1 = n
      · simp [List.find?_cons, hq]
      · have hnq : ¬ (n = q.1) := fun hh => hq hh.symm
        simp [List.find?_cons, hq, hnq]

theorem dlookup_load_domains_from (content : String) (n : String) :
    dlookup (load_domains_from content) n =
      ((wf_lines_entries content).reverse.find? (fun q => q.1 == n)).map Prod.snd := by
  rw [load_domains_from_eq, dlookup_foldl_dinsertPair]
  cases hf : (wf_lines_entries content).reverse.find? (fun q => q.1 == n) with
  | some x => simp
  | none => simp [dlookup]

/-! ## Counting lemmas -/

theorem countP_key_nodup {d : List (String × α)} (n : String)
    (h : (d.map Prod.fst).Nodup) :
    d.countP (fun p => p.1 == n) = if dcontains d n then 1 else 0 := by
  have hc : d.countP (fun p => p.1 == n) = (d.map Prod.fst).count n := by
    rw [List.count_eq_countP, List.countP_map]
    rfl
  rw [hc, dcontains_eq_mem]
  by_cases hm : n ∈ d.map Prod.fst
  · simp [hm, List.count_eq_one_of_mem h hm]
  · simp [hm, List.count_eq_zero_of_not_mem hm]

theorem countP_sync_calls (content : String) (ml : MonitorList)
    (oracle : Nat → CallOutcome) (n : String) :
    ((cmd_sync_core (load_domains_from content) (get_existing_monitors ml) oracle).1).countP
        (isAddNamed n) =
      if dcontains (load_domains_from content) n
          && !dcontains (get_existing_monitors ml) n then 1 else 0 := by
  rw [cmd_sync_core_calls, List.countP_map]
  have h1 : ((load_domains_from content).filter
        (fun p => !dcontains (get_existing_monitors ml) p.1)).countP
        ((isAddNamed n) ∘ (fun p => RpcCall.add (monitor_data p.1 p.2))) =
      ((load_domains_from content).filter
        (fun p => !dcontains (get_existing_monitors ml) p.1)).countP
        (fun p => p.1 == n) := by
    apply List.countP_congr
    intro p _
    simp [isAddNamed, monitor_data, Function.comp]
  rw [h1, List.countP_filter]
  by_cases hE : dcontains (get_existing_monitors ml) n
  · rw [if_neg (by simp [hE])]
    rw [List.countP_eq_zero]
    intro p hp
    simp only [Bool.and_eq_true, beq_iff_eq, Bool.not_eq_true']
    rintro ⟨rfl, hcon⟩
    rw [hE] at hcon
    exact absurd hcon (by simp)
  · have h2 : ((load_domains_from content).countP
        (fun p => p.1 == n && !dcontains (get_existing_monitors ml) p.1)) =
        (load_domains_from content).countP (fun p => p.1 == n) := by
      apply List.countP_congr
      intro p _
      by_cases hpn : p.1 = n
      · simp [hpn, hE]
      · simp [hpn]
    rw [h2, countP_key_nodup n (nodup_keys_load_domains_from content)]
    simp [hE]

/-! ## What a fully successful sync leaves on the remote service -/

theorem createdMonitors_map_add (f : α → MonitorData) (l : List α) :
    createdMonitors (l.map (fun p => RpcCall.add (f p))) =
      l.map (fun p => monitorOfData (f p)) := by
  induction l with
  | nil => rfl
  | cons a l ih =>
    unfold createdMonitors at ih ⊢
    simp only [List.map_cons, List.filterMap_cons]
    rw [ih]

theorem foldl_syncStep_all_contained (E : List (String × ExistingInfo))
    (oracle : Nat → CallOutcome) (domains : List (String × String)) :
    ∀ acc : List RpcCall × Nat, (∀ p ∈ domains, dcontains E p.1 = true) →
      domains.foldl (syncStep E oracle) acc = acc := by
  induction domains with
  | nil => intro acc _; rfl
  | cons p l ih =>
    intro acc h
    rw [List.foldl_cons,
      show syncStep E oracle acc p = acc from by
        simp [syncStep, h p (List.mem_cons_self p l)]]
    exact ih acc (fun q hq => h q (List.mem_cons_of_mem p hq))

theorem filterMap_addName_map_add (f : α → MonitorData) (l : List α) :
    (l.map (fun p => RpcCall.add (f p))).filterMap addName =
      l.map (fun p => (f p).name) := by
  induction l with
  | nil => rfl
  | cons a l ih =>
    simp only [List.map_cons, List.filterMap_cons]
    rw [show addName (RpcCall.add (f a)) = some (f a).name from rfl, ih]

theorem sync_call_names (d : List (String × String))
    (E : List (String × ExistingInfo)) (oracle : Nat → CallOutcome) :
    ((cmd_sync_core d E oracle).1).filterMap addName =
      (d.map Prod.fst).filter (fun n => !dcontains E n) := by
  rw [cmd_sync_core_calls, filterMap_addName_map_add, List.filter_map]
  rfl

theorem delete_names (d : List (String × String))
    (E : List (String × ExistingInfo)) :
    (cleanup_to_delete d E).map (fun t => t.2.1) =
      (E.map Prod.fst).filter (fun n => !dcontains d n) := by
  rw [cleanup_to_delete_eq, List.map_map, List.filter_map]
  rfl

theorem dcontains_ge_mapUrl (f : Nat → MonitorRec → Option String)
    (ml : MonitorList) (n : String) :
    dcontains (get_existing_monitors (mapUrl f ml)) n =
      dcontains (get_existing_monitors ml) n := by
  rw [dcontains_ge, dcontains_ge, mapUrl, List.any_map]
  rfl

/-! ## Claim theorems -/

/-- C1: for every domains file and snapshot, `Sync` issues exactly one
create-monitor call per name of the file absent from the filtered directory
and zero per present name; and on the snapshot a fully successful run
leaves behind (the old monitors plus one monitor per create call, with
arbitrary fresh ids), a second `Sync` issues zero create calls. -/
theorem C1_sync_exactly_one_create_per_missing_name (content : String)
    (ml : MonitorList) (oracle : Nat → CallOutcome) :
    cmd_sync (some content) ml oracle =
      some (cmd_sync_core (load_domains_from content) (get_existing_monitors ml) oracle) ∧
    (∀ n : String,
      ((cmd_sync_core (load_domains_from content)
          (get_existing_monitors ml) oracle).1).countP (isAddNamed n) =
        if dcontains (load_domains_from content) n
            && !dcontains (get_existing_monitors ml) n then 1 else 0) ∧
    (∀ (extra : MonitorList) (oracle2 : Nat → CallOutcome),
      extra.map Prod.snd =
        createdMonitors ((cmd_sync_core (load_domains_from content)
          (get_existing_monitors ml) oracle).1) →
      cmd_sync (some content) (ml ++ extra) oracle2 =
        some ([], 0, (load_domains_from content).length)) := by
  refine ⟨rfl, countP_sync_calls content ml oracle, ?_⟩
  intro extra oracle2 hextra
  rw [cmd_sync_core_calls, createdMonitors_map_add] at hextra
  have hall : ∀ p ∈ load_domains_from content,
      dcontains (get_existing_monitors (ml ++ extra)) p.1 = true := by
    intro p hp
    rw [dcontains_ge, List.any_append]
    by_cases hE : dcontains (get_existing_monitors ml) p.1
    · rw [dcontains_ge] at hE
      rw [hE, Bool.true_or]
    · have hmem : p ∈ (load_domains_from content).filter
          (fun q => !dcontains (get_existing_monitors ml) q.1) :=
        List.mem_filter.mpr ⟨hp, by simp [hE]⟩
      have hmm : monitorOfData (monitor_data p.1 p.2) ∈ extra.map Prod.snd := by
        rw [hextra]
        exact List.mem_map_of_mem _ hmem
      obtain ⟨e, he, heq⟩ := List.mem_map.mp hmm
      have hpred : (monitorManaged e.2 && e.2.name == p.1) = true := by
        rw [heq]
        simp [monitorManaged, monitorOfData, monitor_data]
      have : extra.any (fun q => monitorManaged q.2 && q.2.name == p.1) = true :=
        List.any_eq_true.mpr ⟨e, he, hpred⟩
      rw [this, Bool.or_true]
  show some (cmd_sync_core (load_domains_from content)
      (get_existing_monitors (ml ++ extra)) oracle2) = _
  unfold cmd_sync_core
  rw [foldl_syncStep_all_contained _ _ _ ([], 0) hall]

/-- C2: cleanup-preview and cleanup-confirm compute the same delete-set
(the confirm call list is exactly the preview list mapped to delete calls,
so one delete call per member), every member's name is absent from the
domains file, and every delete call stems from a filtered monitor whose
name is absent from the domains file. -/
theorem C2_cleanup_preview_confirm_same_delete_set (content : String)
    (ml : MonitorList) (oracle : Nat → CallOutcome) :
    cmd_cleanup_preview (some content) ml =
      some (cleanup_to_delete (load_domains_from content) (get_existing_monitors ml)) ∧
    cmd_cleanup_confirm (some content) ml oracle =
      some (cmd_cleanup_confirm_core (load_domains_from content)
        (get_existing_monitors ml) oracle) ∧
    (cmd_cleanup_confirm_core (load_domains_from content)
        (get_existing_monitors ml) oracle).1 =
      (cleanup_to_delete (load_domains_from content) (get_existing_monitors ml)).map
        (fun t => RpcCall.deleteMonitor t.1) ∧
    (∀ t ∈ cleanup_to_delete (load_domains_from content) (get_existing_monitors ml),
      dcontains (load_domains_from content) t.2.1 = false) ∧
    (∀ c ∈ (cmd_cleanup_confirm_core (load_domains_from content)
        (get_existing_monitors ml) oracle).1,
      ∃ p ∈ get_existing_monitors ml,
        dcontains (load_domains_from content) p.1 = false ∧
        c = RpcCall.deleteMonitor p.2.id) := by
  refine ⟨rfl, rfl, ?_, ?_, ?_⟩
  · rw [cmd_cleanup_confirm_core_calls, cleanup_to_delete_eq, List.map_map]
    rfl
  · intro t ht
    rw [cleanup_to_delete_eq] at ht
    obtain ⟨p, hp, hpt⟩ := List.mem_map.mp ht
    have hf := (List.mem_filter.mp hp).2
    rw [← hpt]
    simpa using hf
  · intro c hc
    rw [cmd_cleanup_confirm_core_calls] at hc
    obtain ⟨p, hp, hpc⟩ := List.mem_map.mp hc
    obtain ⟨hpm, hpf⟩ := List.mem_filter.mp hp
    exact ⟨p, hpm, by simpa using hpf, hpc.symm⟩

/-- C3: identity is name-equality only: a name present in both the domains
file and the filtered directory gets neither a create call nor a delete-set
entry, whatever the URLs on either side; and replacing every monitor URL
(and the domain URLs, keeping the same names) changes neither the created
names nor the delete-set names. -/
theorem C3_identity_is_name_equality_only (content : String) (ml : MonitorList)
    (oracle : Nat → CallOutcome) :
    (∀ n : String,
      dcontains (load_domains_from content) n = true →
      dcontains (get_existing_monitors ml) n = true →
      ((cmd_sync_core (load_domains_from content)
          (get_existing_monitors ml) oracle).1).countP (isAddNamed n) = 0 ∧
      (∀ t ∈ cleanup_to_delete (load_domains_from content) (get_existing_monitors ml),
        t.2.1 ≠ n)) ∧
    (∀ (f : Nat → MonitorRec → Option String) (d2 : List (String × String))
        (oracle2 : Nat → CallOutcome),
      d2.map Prod.fst = (load_domains_from content).map Prod.fst →
      ((cmd_sync_core d2 (get_existing_monitors (mapUrl f ml)) oracle2).1).filterMap
          addName =
        ((cmd_sync_core (load_domains_from content)
          (get_existing_monitors ml) oracle).1).filterMap addName ∧
      (cleanup_to_delete d2 (get_existing_monitors (mapUrl f ml))).map (fun t => t.2.1) =
        (cleanup_to_delete (load_domains_from content)
          (get_existing_monitors ml)).map (fun t => t.2.1)) := by
  constructor
  · intro n hd hE
    constructor
    · rw [countP_sync_calls, hd, hE]
      rfl
    · intro t ht hn
      rw [cleanup_to_delete_eq] at ht
      obtain ⟨p, hp, hpt⟩ := List.mem_map.mp ht
      have hf := (List.mem_filter.mp hp).2
      have : dcontains (load_domains_from content) p.1 = false := by simpa using hf
      rw [← hpt] at hn
      simp only at hn
      rw [hn, hd] at this
      exact absurd this (by simp)
  · intro f d2 oracle2 hkeys
    constructor
    · rw [sync_call_names, sync_call_names, hkeys]
      have hpred : (fun n => !dcontains (get_existing_monitors (mapUrl f ml)) n) =
          (fun n => !dcontains (get_existing_monitors ml) n) :=
        funext fun n => by rw [dcontains_ge_mapUrl]
      rw [hpred]
    · rw [delete_names, delete_names, dkeys_ge_mapUrl]
      have hpred : (fun n => !dcontains d2 n) =
          (fun n => !dcontains (load_domains_from content) n) :=
        funext fun n => by rw [dcontains_eq_mem, dcontains_eq_mem, hkeys]
      rw [hpred]

/-- C4: the filtered monitor directory contains a name exactly when some
snapshot monitor with `parent == PARENT_GROUP_ID` and `type == "http"`
carries it, and every directory entry stems from such a monitor — monitors
failing the predicate contribute nothing, whatever their name. -/
theorem C4_filtered_directory_characterization (ml : MonitorList) (n : String) :
    (dcontains (get_existing_monitors ml) n = true ↔
      ∃ p ∈ ml, p.2.parent = some PARENT_GROUP_ID ∧ p.2.type = some "http" ∧
        p.2.name = n) ∧
    (∀ q ∈ get_existing_monitors ml,
      ∃ p ∈ ml, p.2.parent = some PARENT_GROUP_ID ∧ p.2.type = some "http" ∧
        q = (p.2.name, ⟨p.1, p.2.url.getD ""⟩)) := by
  constructor
  · rw [dcontains_ge, List.any_eq_true]
    constructor
    · rintro ⟨p, hp, hpred⟩
      simp only [Bool.and_eq_true, beq_iff_eq] at hpred
      obtain ⟨hm, hn⟩ := hpred
      unfold monitorManaged at hm
      simp only [Bool.and_eq_true, decide_eq_true_eq] at hm
      exact ⟨p, hp, hm.1, hm.2, hn⟩
    · rintro ⟨p, hp, h1, h2, h3⟩
      refine ⟨p, hp, ?_⟩
      simp [monitorManaged, h1, h2, h3]
  · intro q hq
    obtain ⟨p, hp, hm, hq'⟩ := mem_ge hq
    unfold monitorManaged at hm
    simp only [Bool.and_eq_true, decide_eq_true_eq] at hm
    exact ⟨p, hp, hm.1, hm.2, hq'⟩

theorem authenticate_fallback_no_creds (cfg : AuthConfig) (env : AuthEnv)
    (evs : List AuthEvent) (h : (cfg.username = "" || cfg.password = "") = true) :
    authenticate_fallback cfg env evs = ⟨evs, none, env.tokenFile⟩ := by
  unfold authenticate_fallback
  rw [if_pos h]

theorem authenticate_fallback_events_cases (cfg : AuthConfig) (env : AuthEnv)
    (evs : List AuthEvent) (h : (cfg.username = "" || cfg.password = "") = false) :
    (authenticate_fallback cfg env evs).events =
        evs ++ [.callLogin cfg.username cfg.password] ∨
    ∃ tk, (authenticate_fallback cfg env evs).events =
        evs ++ [.callLogin cfg.username cfg.password] ++ [.saveJwt tk] := by
  unfold authenticate_fallback
  rw [if_neg (by simp [h])]
  cases call_with_callback env.loginOutcome with
  | none => exact Or.inl rfl
  | some r =>
    by_cases hok : r.ok
    · by_cases htk : truthyStr r.token
      · exact Or.inr ⟨r.token.getD "", by simp [hok, htk]⟩
      · simp [hok, htk]
    · simp [hok]

/-- C5: with a present (truthy) stored token and an ok token-login response,
`authenticate` makes exactly that one token-login call, no credential-login
call, and leaves the stored token unchanged; with an absent/blank token or a
non-ok token-login and configured credentials, exactly one credential-login
call is made and a token carried by an ok login response overwrites the
Session Store; and every run makes at most one token-login and at most one
credential-login call. -/
theorem C5_authenticator_behaviour (cfg : AuthConfig) (env : AuthEnv) :
    ((truthyStr (load_jwt env.tokenFile) = true ∧
        respOk (call_with_callback env.tokenLoginOutcome) = true) →
      authenticate cfg env =
        ⟨[.callTokenLogin ((load_jwt env.tokenFile).getD "")], some true,
          env.tokenFile⟩) ∧
    ((truthyStr (load_jwt env.tokenFile) = false ∨
        respOk (call_with_callback env.tokenLoginOutcome) = false) →
      ¬ cfg.username = "" → ¬ cfg.password = "" →
      ((authenticate cfg env).events.countP isCallLogin = 1 ∧
        (∀ r : Response, env.loginOutcome = CallOutcome.response r → r.ok = true →
          truthyStr r.token = true →
          (authenticate cfg env).tokenFileAfter = some (r.token.getD "")))) ∧
    (authenticate cfg env).events.countP isCallTokenLogin ≤ 1 ∧
    (authenticate cfg env).events.countP isCallLogin ≤ 1 := by
  have hfall_store : ∀ evs, (cfg.username = "" || cfg.password = "") = false →
      ∀ r : Response, env.loginOutcome = CallOutcome.response r → r.ok = true →
        truthyStr r.token = true →
        (authenticate_fallback cfg env evs).tokenFileAfter = some (r.token.getD "") := by
    intro evs hcred r hresp hok htk
    unfold authenticate_fallback
    rw [if_neg (by simp [hcred]), hresp]
    simp [call_with_callback, hok, htk]
  have hfall_counts : ∀ evs, (authenticate_fallback cfg env evs).events.countP
        isCallLogin ≤ evs.countP isCallLogin + 1 ∧
      (authenticate_fallback cfg env evs).events.countP isCallTokenLogin =
        evs.countP isCallTokenLogin := by
    intro evs
    by_cases hcred : (cfg.username = "" || cfg.password = "") = true
    · rw [authenticate_fallback_no_creds cfg env evs hcred]
      exact ⟨Nat.le_succ _, rfl⟩
    · rcases authenticate_fallback_events_cases cfg env evs
          (Bool.not_eq_true _ ▸ (by simpa using hcred)) with he | ⟨tk, he⟩ <;>
        rw [he] <;>
        simp [List.countP_append, isCallLogin, isCallTokenLogin]
  have hfall_exact : ∀ evs, (cfg.username = "" || cfg.password = "") = false →
      evs.countP isCallLogin = 0 →
      (authenticate_fallback cfg env evs).events.countP isCallLogin = 1 := by
    intro evs hcred h0
    rcases authenticate_fallback_events_cases cfg env evs hcred with he | ⟨tk, he⟩ <;>
      rw [he] <;>
      simp [List.countP_append, isCallLogin, h0]
  by_cases ht : truthyStr (load_jwt env.tokenFile)
  · by_cases hr : respOk (call_with_callback env.tokenLoginOutcome)
    · refine ⟨fun _ => ?_, fun h _ _ => ?_, ?_, ?_⟩
      · simp [authenticate, ht, hr]
      · rcases h with h | h
        · rw [ht] at h; exact absurd h (by simp)
        · rw [hr] at h; exact absurd h (by simp)
      · simp [authenticate, ht, hr, isCallTokenLogin]
      · simp [authenticate, ht, hr, isCallLogin]
    · have hauth : authenticate cfg env =
          authenticate_fallback cfg env
            [.callTokenLogin ((load_jwt env.tokenFile).getD "")] := by
        simp [authenticate, ht, hr]
      refine ⟨fun hc => ?_, fun _ hu hp => ?_, ?_, ?_⟩
      · rw [hc.2] at hr; exact absurd rfl hr
      · have hcred : (cfg.username = "" || cfg.password = "") = false := by
          simp [hu, hp]
        refine ⟨?_, ?_⟩
        · rw [hauth]
          exact hfall_exact _ hcred (by simp [isCallLogin])
        · intro r hresp hok htk
          rw [hauth]
          exact hfall_store _ hcred r hresp hok htk
      · rw [hauth]
        have := (hfall_counts [.callTokenLogin ((load_jwt env.tokenFile).getD "")]).2
        rw [this]
        simp [isCallTokenLogin]
      · rw [hauth]
        have := (hfall_counts [.callTokenLogin ((load_jwt env.tokenFile).getD "")]).1
        calc _ ≤ _ := this
          _ ≤ 1 := by simp [isCallLogin]
  · have hauth : authenticate cfg env = authenticate_fallback cfg env [] := by
      simp [authenticate, ht]
    refine ⟨fun hc => ?_, fun _ hu hp => ?_, ?_, ?_⟩
    · rw [hc.1] at ht; exact absurd rfl ht
    · have hcred : (cfg.username = "" || cfg.password = "") = false := by
        simp [hu, hp]
      refine ⟨?_, ?_⟩
      · rw [hauth]
        exact hfall_exact _ hcred (by simp)
      · intro r hresp hok htk
        rw [hauth]
        exact hfall_store _ hcred r hresp hok htk
    · rw [hauth]
      have := (hfall_counts []).2
      rw [this]
      simp
    · rw [hauth]
      have := (hfall_counts []).1
      calc _ ≤ _ := this
        _ ≤ 1 := by simp

/-- C6 counterexample: a run with the domains file missing and sync selected
exits 1, yet a connection attempt is in its trace before the exit — the
process does not exit before the connection attempt as claimed. -/
theorem C6_counterexample_connect_precedes_exit :
    (main ⟨true, false, false, false⟩ ⟨"", ""⟩
        ⟨true, ⟨some "tok", .response {ok := true}, .timeout⟩, none, [],
          fun _ => .timeout⟩).exitCode = 1 ∧
    MainEvent.connectAttempt ∈
      (main ⟨true, false, false, false⟩ ⟨"", ""⟩
        ⟨true, ⟨some "tok", .response {ok := true}, .timeout⟩, none, [],
          fun _ => .timeout⟩).trace := by
  constructor
  · rfl
  · exact List.mem_cons_self _ _

/-- C6 (amended): when the domains file is missing and the dispatched mode
needs it, the run exits non-zero and issues no create/delete RPC call; the
connection attempt and authentication, however, precede the exit. -/
theorem C6_missing_domains_exits_nonzero_before_any_rpc (a : Args)
    (cfg : AuthConfig) (env : MainEnv) (hd : env.domainsFile = none)
    (hm : needsDomains (selectMode a) = true) :
    (main a cfg env).exitCode ≠ 0 ∧
    ∀ c : RpcCall, MainEvent.rpc c ∉ (main a cfg env).trace := by
  have hflag : anyFlag a = true := by
    by_contra hf
    have hf' : anyFlag a = false := by simpa using hf
    unfold anyFlag at hf'
    simp only [Bool.or_eq_false_iff] at hf'
    obtain ⟨⟨⟨h1, h2⟩, h3⟩, h4⟩ := hf'
    rw [show selectMode a = none from by simp [selectMode, h1, h2, h3, h4]] at hm
    exact absurd hm (by simp [needsDomains])
  have hpre : ∀ c : RpcCall, MainEvent.rpc c ∉
      (MainEvent.connectAttempt ::
        ((authenticate cfg env.auth).events.map MainEvent.auth)) := by
    intro c hc
    rcases List.mem_cons.mp hc with h | h
    · simp at h
    · obtain ⟨e, _, he⟩ := List.mem_map.mp h
      simp at he
  unfold main
  rw [hflag]
  simp only [Bool.not_true, Bool.false_eq_true, if_false]
  by_cases hconn : env.connectOk
  · rw [hconn]
    simp only [Bool.not_true, Bool.false_eq_true, if_false]
    cases hret : (authenticate cfg env.auth).returned with
    | none =>
      exact ⟨by simp, hpre⟩
    | some b =>
      cases hsel : selectMode a with
      | none => rw [hsel] at hm; exact absurd hm (by simp [needsDomains])
      | some m =>
        cases m with
        | sync =>
          rw [show cmd_sync env.domainsFile env.monitor_list env.oracle = none from by
            rw [hd]; rfl]
          refine ⟨by simp, ?_⟩
          intro c hc
          rcases List.mem_append.mp hc with h | h
          · exact hpre c h
          · simp at h
        | list => rw [hsel] at hm; exact absurd hm (by simp [needsDomains])
        | cleanup =>
          rw [show cmd_cleanup_preview env.domainsFile env.monitor_list = none from by
            rw [hd]; rfl]
          refine ⟨by simp, ?_⟩
          intro c hc
          rcases List.mem_append.mp hc with h | h
          · exact hpre c h
          · simp at h
        | cleanup_confirm =>
          rw [show cmd_cleanup_confirm env.domainsFile env.monitor_list env.oracle =
              none from by rw [hd]; rfl]
          refine ⟨by simp, ?_⟩
          intro c hc
          rcases List.mem_append.mp hc with h | h
          · exact hpre c h
          · simp at h
  · rw [show env.connectOk = false from by simpa using hconn]
    refine ⟨by simp, ?_⟩
    intro c hc
    simp at hc

/-- C7: every RPC call through `call_with_callback` is total: a correlated
response is returned and a timeout or transport error becomes `None`; the
call sequences of sync and cleanup-confirm are identical whatever the
outcomes (so no call is retried and no per-item failure aborts the batch),
both commands complete normally whenever the domains file exists, and no
name receives more than one create call. -/
theorem C7_rpc_total_and_never_retried (content : String) (ml : MonitorList)
    (o1 o2 : Nat → CallOutcome) :
    (∀ r : Response, call_with_callback (CallOutcome.response r) = some r) ∧
    call_with_callback CallOutcome.timeout = none ∧
    (∀ e : String, call_with_callback (CallOutcome.transportError e) = none) ∧
    ((cmd_sync (some content) ml o1).map (fun r => r.1) =
      (cmd_sync (some content) ml o2).map (fun r => r.1)) ∧
    ((cmd_cleanup_confirm (some content) ml o1).map (fun r => r.1) =
      (cmd_cleanup_confirm (some content) ml o2).map (fun r => r.1)) ∧
    (cmd_sync (some content) ml o1).isSome = true ∧
    (cmd_cleanup_confirm (some content) ml o1).isSome = true ∧
    (∀ n : String,
      ((cmd_sync_core (load_domains_from content)
        (get_existing_monitors ml) o1).1).countP (isAddNamed n) ≤ 1) := by
  refine ⟨fun r => rfl, rfl, fun e => rfl, ?_, ?_, rfl, rfl, ?_⟩
  · show some ((cmd_sync_core _ _ o1).1) = some ((cmd_sync_core _ _ o2).1)
    rw [cmd_sync_core_calls, cmd_sync_core_calls]
  · show some ((cmd_cleanup_confirm_core _ _ o1).1) =
      some ((cmd_cleanup_confirm_core _ _ o2).1)
    rw [cmd_cleanup_confirm_core_calls, cmd_cleanup_confirm_core_calls]
  · intro n
    rw [countP_sync_calls]
    split
    · exact Nat.le_refl 1
    · exact Nat.zero_le 1

theorem main_ran_eq (a : Args) (cfg : AuthConfig) (env : MainEnv) :
    (main a cfg env).ran = none ∨ (main a cfg env).ran = selectMode a := by
  unfold main
  repeat' split
  all_goals cases hret : (authenticate cfg env.auth).returned <;> simp_all

/-- C8: invoked with none of the four mode flags, `main` prints usage and
exits 0, with no connection attempt and no RPC call; and whichever command
body runs is the single mode the `elif` chain selects — never more than
one. -/
theorem C8_no_flags_prints_usage_exits_zero (a : Args) (cfg : AuthConfig)
    (env : MainEnv) :
    (anyFlag a = false →
      main a cfg env = ⟨[MainEvent.printUsage], 0, none⟩ ∧
      MainEvent.connectAttempt ∉ (main a cfg env).trace ∧
      (∀ c : RpcCall, MainEvent.rpc c ∉ (main a cfg env).trace)) ∧
    (∀ m : Mode, (main a cfg env).ran = some m → selectMode a = some m) := by
  constructor
  · intro hf
    have hm : main a cfg env = ⟨[MainEvent.printUsage], 0, none⟩ := by
      unfold main
      rw [hf]
      rfl
    refine ⟨hm, ?_, ?_⟩
    · rw [hm]
      intro hmem
      simp at hmem
    · intro c
      rw [hm]
      intro hmem
      simp at hmem
  · intro m hm
    rcases main_ran_eq a cfg env with h | h
    · rw [h] at hm
      exact absurd hm (by simp)
    · rw [h] at hm
      exact hm

/-- C9: in the loaded mapping each name of a well-formed line appears
exactly once, bound to the url (third field) of the last well-formed line
carrying it (first match over the reversed line list). -/
theorem C9_duplicate_names_last_line_wins (content : String) (n : String) :
    dlookup (load_domains_from content) n =
      ((wf_lines_entries content).reverse.find? (fun q => q.1 == n)).map Prod.snd ∧
    ((load_domains_from content).map Prod.fst).count n =
      (if (wf_lines_entries content).any (fun q => q.1 == n) then 1 else 0) := by
  refine ⟨dlookup_load_domains_from content n, ?_⟩
  have hnodup := nodup_keys_load_domains_from content
  have hany : (wf_lines_entries content).any (fun q => q.1 == n) =
      decide (n ∈ (load_domains_from content).map Prod.fst) := by
    rw [← dcontains_load_domains_from, dcontains_eq_mem]
  by_cases hm : n ∈ (load_domains_from content).map Prod.fst
  · rw [List.count_eq_one_of_mem hnodup hm,
      if_pos (by rw [hany]; exact decide_eq_true hm)]
  · rw [List.count_eq_zero_of_not_mem hm,
      if_neg (by rw [hany]; exact fun hx => hm (of_decide_eq_true hx))]

/-- C10: a token file holding only whitespace is treated exactly like an
absent one: zero token-login calls, and the same events and outcome as a
run with no token file at all. -/
theorem C10_whitespace_token_file_like_absent (cfg : AuthConfig) (w : String)
    (env : AuthEnv) (hf : env.tokenFile = some w) (hw : pyStrip w = "") :
    (authenticate cfg env).events.countP isCallTokenLogin = 0 ∧
    (authenticate cfg env).events =
      (authenticate cfg { env with tokenFile := none }).events ∧
    (authenticate cfg env).returned =
      (authenticate cfg { env with tokenFile := none }).returned := by
  have ht : truthyStr (load_jwt env.tokenFile) = false := by
    rw [hf]
    simp [load_jwt, truthyStr, hw]
  have h1 : authenticate cfg env = authenticate_fallback cfg env [] := by
    simp [authenticate, ht]
  have h2 : authenticate cfg { env with tokenFile := none } =
      authenticate_fallback cfg { env with tokenFile := none } [] := by
    simp [authenticate, load_jwt, truthyStr]
  have h3 : (authenticate_fallback cfg env []).events =
        (authenticate_fallback cfg { env with tokenFile := none } []).events ∧
      (authenticate_fallback cfg env []).returned =
        (authenticate_fallback cfg { env with tokenFile := none } []).returned := by
    unfold authenticate_fallback
    by_cases hcred : (cfg.username = "" || cfg.password = "") = true
    · simp [hcred]
    · rw [if_neg (by simpa using hcred), if_neg (by simpa using hcred)]
      cases hl : call_with_callback env.loginOutcome with
      | none => exact ⟨rfl, rfl⟩
      | some r =>
        by_cases hok : r.ok
        · by_cases htk : truthyStr r.token
          · simp [hok, htk]
          · simp [hok, htk]
        · simp [hok]
  refine ⟨?_, h1 ▸ h2 ▸ h3.1, h1 ▸ h2 ▸ h3.2⟩
  rw [h1]
  by_cases hcred : (cfg.username = "" || cfg.password = "") = true
  · rw [authenticate_fallback_no_creds _ _ _ hcred]
    rfl
  · rcases authenticate_fallback_events_cases cfg env []
        (Bool.not_eq_true _ ▸ (by simpa using hcred)) with he | ⟨tk, he⟩ <;>
      rw [he] <;>
      simp [isCallTokenLogin]

/-- C10 witness: the theorem at a concrete whitespace-only token file. -/
theorem C10_whitespace_token_witness :
    (authenticate ⟨"u", "p"⟩
        ⟨some " \n ", CallOutcome.timeout, CallOutcome.timeout⟩).events.countP
      isCallTokenLogin = 0 ∧
    (authenticate ⟨"u", "p"⟩
        ⟨some " \n ", CallOutcome.timeout, CallOutcome.timeout⟩).events =
      (authenticate ⟨"u", "p"⟩
        ⟨none, CallOutcome.timeout, CallOutcome.timeout⟩).events ∧
    (authenticate ⟨"u", "p"⟩
        ⟨some " \n ", CallOutcome.timeout, CallOutcome.timeout⟩).returned =
      (authenticate ⟨"u", "p"⟩
        ⟨none, CallOutcome.timeout, CallOutcome.timeout⟩).returned :=
  C10_whitespace_token_file_like_absent ⟨"u", "p"⟩ " \n "
    ⟨some " \n ", CallOutcome.timeout, CallOutcome.timeout⟩ rfl (by decide)

/-- C6 witness: the amended theorem at a concrete run. -/
theorem C6_missing_domains_witness :
    (main ⟨true, false, false, false⟩ ⟨"u", "p"⟩
        ⟨true, ⟨some "tok", .response {ok := true}, .timeout⟩, none, [],
          fun _ => .timeout⟩).exitCode ≠ 0 ∧
    ∀ c : RpcCall, MainEvent.rpc c ∉
      (main ⟨true, false, false, false⟩ ⟨"u", "p"⟩
        ⟨true, ⟨some "tok", .response {ok := true}, .timeout⟩, none, [],
          fun _ => .timeout⟩).trace :=
  C6_missing_domains_exits_nonzero_before_any_rpc _ _ _ rfl rfl

end UKS
